import Mathlib

/-!
Shallow embedding of the tsfpga documentation tooling (`tools/build_docs.py`)
and of the Vivado build-outcome classification exercised by
`tsfpga/test/vivado/test_building_vivado_project.py`.

External collaborators (the git repository used for tag lookup, the local
calendar used by `datetime.fromtimestamp`, and the file system) are passed in
as explicit function parameters:
  * `tagDate : String → Except String Nat` models
    `Repo(...).tag("refs/tags/" + tag).commit.committed_date` (a Unix
    timestamp, or a lookup error);
  * `cal : Nat → CivilDate` models `datetime.fromtimestamp` plus the `%B`
    month-name formatting of the local calendar;
  * `readFile : String → Except String String` models
    `tsfpga.system_utils.read_file`, keyed by filename stem.

A release-notes directory is modelled as the list of stems of its `*.rst`
files (the file `<stem>.rst` is identified by `stem`); the order of the list
is the arbitrary order in which `Path.glob` enumerates the directory.
-/

/-- Lexicographic (code-point) comparison of character lists, as Python
compares strings: this is the order used by `release_notes.sort(reverse=True)`
on the paths returned by `glob`, which for files in one directory compares the
full filenames. -/
def charListLt : List Char → List Char → Bool
  | [], [] => false
  | [], _ :: _ => true
  | _ :: _, [] => false
  | a :: as, b :: bs =>
    if a.toNat < b.toNat then true
    else if b.toNat < a.toNat then false
    else charListLt as bs

/-- Models Python `str.lower()` (all text lower-cased here is ASCII). -/
def lower (s : String) : String := ⟨s.data.map Char.toLower⟩

/-- Helper for substring search: does `pat` start `l`? -/
def isPrefixB : List Char → List Char → Bool
  | [], _ => true
  | _ :: _, [] => false
  | a :: as, b :: bs => a == b && isPrefixB as bs

/-- Substring containment on character lists, models Python `string in text`. -/
def containsB (pat : List Char) : List Char → Bool
  | [] => isPrefixB pat []
  | c :: cs => isPrefixB pat (c :: cs) || containsB pat cs

/-- Models `tsfpga.test.file_contains_string`: the first argument is the file
contents, the second the string searched for. -/
def file_contains_string (contents s : String) : Bool :=
  containsB s.data contents.data

/-- The filename of the note file with stem `stem`, as a character list; the
sort in `get_release_notes_files` compares these (it sorts `Path` objects,
whose order for files of one directory is the order of the full filenames). -/
def fileKey (stem : String) : List Char := (stem ++ ".rst").data

/-- One step of the stable descending insertion sort modelling
`release_notes.sort(reverse=True)`. -/
def insertDesc (x : String) : List String → List String
  | [] => [x]
  | y :: ys =>
    if charListLt (fileKey x) (fileKey y) then y :: insertDesc x ys
    else x :: y :: ys

/-- Stable sort of stems into descending filename order, modelling
`release_notes.sort(reverse=True)` in `get_release_notes_files`. -/
def sortDesc : List String → List String
  | [] => []
  | x :: xs => insertDesc x (sortDesc xs)

/-- The ordered list of note-file stems assembled by
`get_release_notes_files`: all `*.rst` stems except the `unreleased`
sentinel, sorted newest → oldest, with `unreleased` inserted at position 0
unconditionally (`release_notes.insert(0, unreleased_notes_file)`). -/
def get_release_notes_stems (stems : List String) : List String :=
  "unreleased" :: sortDesc (stems.filter (fun s => s != "unreleased"))

/-- A date as produced by `datetime.fromtimestamp`: the fields used by the
format string `f"{time.day} {time:%B} {time.year}"`. -/
structure CivilDate where
  day : Nat
  monthName : String
  year : Nat

/-- Models the formatting in `Release.get_git_date_from_tag`:
`f"{time.day} {time:%B} {time.year}".lower()`. -/
def formatDate (d : CivilDate) : String :=
  lower (toString d.day ++ " " ++ d.monthName ++ " " ++ toString d.year)

/-- Models `Release.get_git_date_from_tag`: look the tag up in the repository
(`tagDate`), convert the commit timestamp with the local calendar (`cal`) and
format it; a lookup error propagates. -/
def get_git_date_from_tag (tagDate : String → Except String Nat)
    (cal : Nat → CivilDate) (tag : String) : Except String String :=
  match tagDate tag with
  | .error e => .error e
  | .ok timestamp => .ok (formatDate (cal timestamp))

/-- The `Release` class of `build_docs.py`; `release_notes_file` holds the
stem identifying the note file. -/
structure Release where
  version : String
  git_tag : String
  date : String
  release_notes_file : String
deriving DecidableEq

/-- Models `Release.__init__`: the `unreleased` stem gives the sentinel entry
(version `Unreleased`, tag `master`, placeholder date); any other stem is a
version whose tag is `"v" + version` and whose date comes from the tag. -/
def mkRelease (tagDate : String → Except String Nat) (cal : Nat → CivilDate)
    (stem : String) : Except String Release :=
  if stem = "unreleased" then
    .ok { version := "Unreleased", git_tag := "master", date := "YYYY-MM-DD",
          release_notes_file := stem }
  else
    match get_git_date_from_tag tagDate cal ("v" ++ stem) with
    | .error e => .error e
    | .ok d =>
      .ok { version := stem, git_tag := "v" ++ stem, date := d,
            release_notes_file := stem }

/-- Exception-propagating map, modelling a Python loop or comprehension in
which the first raised exception aborts the whole computation. -/
def mapE {α β : Type} (f : α → Except String β) : List α → Except String (List β)
  | [] => .ok []
  | x :: xs =>
    match f x with
    | .error e => .error e
    | .ok y =>
      match mapE f xs with
      | .error e => .error e
      | .ok ys => .ok (y :: ys)

/-- Models the pairing loop at the end of `get_release_notes_files`: each
release is yielded together with the git tag of the next-older release, the
last (oldest) one with `None`. -/
def withPrev : List Release → List (Release × Option String)
  | [] => []
  | [r] => [(r, none)]
  | r :: r2 :: rest => (r, some r2.git_tag) :: withPrev (r2 :: rest)

/-- Models `get_release_notes_files`: build a `Release` for every stem in
order (the list comprehension runs before anything is yielded, so any tag
lookup error aborts the whole generator), then pair each release with the tag
of the next-older one. -/
def get_release_notes_files (tagDate : String → Except String Nat)
    (cal : Nat → CivilDate) (stems : List String) :
    Except String (List (Release × Option String)) :=
  match mapE (mkRelease tagDate cal) (get_release_notes_stems stems) with
  | .error e => .error e
  | .ok releases => .ok (withPrev releases)

/-- A run of `n` dashes, modelling `"-" * len(heading)`. -/
def dashes (n : Nat) : String := ⟨List.replicate n '-'⟩

/-- The heading of one entry: `f"{release.version} ({release.date})"`. -/
def headingOf (r : Release) : String := r.version ++ " (" ++ r.date ++ ")"

/-- The previous-release diff-link line emitted when a previous release
exists, with the diff URL built from the previous tag and the entry's tag. -/
def diffLine (previous_release_git_tag git_tag : String) : String :=
  "`Changes since previous release <https://gitlab.com/tsfpga/tsfpga/-/compare/"
    ++ previous_release_git_tag ++ "..." ++ git_tag ++ ">`__\n"

/-- The text contributed by one entry to the assembled document: heading,
underline, blank line, the diff-link line when a previous release exists,
blank line, note body, newline — exactly the `rst +=` sequence in the loop
body of `generate_release_notes`. Reading the note body can fail. -/
def release_rst (readFile : String → Except String String) (r : Release)
    (previous_release_git_tag : Option String) : Except String String :=
  match readFile r.release_notes_file with
  | .error e => .error e
  | .ok body =>
    .ok (headingOf r ++ "\n" ++ dashes (headingOf r).length ++ "\n" ++ "\n"
      ++ (match previous_release_git_tag with
          | none => ""
          | some p => diffLine p r.git_tag)
      ++ "\n" ++ body ++ "\n")

/-- Concatenation of the per-entry chunks, modelling the `rst` accumulator. -/
def concatAll : List String → String
  | [] => ""
  | c :: cs => c ++ concatAll cs

/-- Models `generate_release_notes`: assemble the ordered entries and
concatenate their texts; any error (tag lookup, note-file read) aborts the
function before `create_file` is reached, so an `.error` result means no
output document is written. -/
def generate_release_notes (readFile : String → Except String String)
    (tagDate : String → Except String Nat) (cal : Nat → CivilDate)
    (stems : List String) : Except String String :=
  match get_release_notes_files tagDate cal stems with
  | .error e => .error e
  | .ok pairs =>
    match mapE (fun p => release_rst readFile p.1 p.2) pairs with
    | .error e => .error e
    | .ok chunks => .ok (concatAll chunks)

/-- Python `round` on rationals: round half to even, as applied to the
coverage fraction in `build_python_coverage_badge`. -/
def pyRound (q : ℚ) : ℤ :=
  let n : ℤ := ⌊q⌋
  if q - n < 1/2 then n
  else if (1 : ℚ)/2 < q - n then n + 1
  else if n % 2 = 0 then n else n + 1

/-- Models `int(round(float(xml_root.attrib["line-rate"]) * 100))`, with the
`line-rate` fraction read as an exact rational. -/
def line_coverage (rate : ℚ) : ℤ := pyRound (rate * 100)

/-- The message of the failing minimum-coverage assertion. -/
def lowMsg (n : ℤ) : String :=
  "Coverage is way low: " ++ toString n ++ ". Something is wrong."

/-- The data of the generated coverage badge: the percentage text and the
badge color. -/
structure CoverageBadge where
  percentage : ℤ
  color : String
deriving DecidableEq

/-- Models `build_python_coverage_badge` (given the parsed line-rate
fraction): assert the percentage is above 50 (else the assertion error
aborts and no badge is produced), then pick green above 80, red otherwise. -/
def build_python_coverage_badge (rate : ℚ) : Except String CoverageBadge :=
  if 50 < line_coverage rate then
    .ok { percentage := line_coverage rate,
          color := if 80 < line_coverage rate then "green" else "red" }
  else
    .error (lowMsg (line_coverage rate))

/-- The compile/elaboration failure marker asserted by
`test_synth_should_fail_if_source_code_does_not_compile`. -/
def compile_error_marker : String := "\nERROR: Run synth_1 failed."

/-- The clock-domain-crossing failure marker asserted by
`test_synth_with_unhandled_clock_crossing_should_fail`. -/
def clock_crossing_marker : String :=
  "\nERROR: Unhandled clock crossing in synth_1 run."

/-- The timing failure marker asserted by
`test_build_with_bad_timing_should_fail`. -/
def timing_error_marker : String :=
  "\nERROR: Timing not OK after implementation run."

/-- The build outcome classes distinguished by the test suite. -/
inductive BuildClass where
  | success
  | compileFailure
  | clockCrossingFailure
  | timingFailure
  | unknown
deriving DecidableEq

/-- Modelled from the spec: the classification step of the
ProjectBuildVerifier is not under `src/` (only the tests that exercise it
are), so the classifier is taken from the spec's words — on failure the class
is distinguished purely by scanning the build log for one of the fixed
literal marker substrings; the marker strings themselves are the ones the
tests in `test_building_vivado_project.py` assert on. -/
def classify_build (failed : Bool) (log : String) : BuildClass :=
  if failed then
    if file_contains_string log compile_error_marker then .compileFailure
    else if file_contains_string log clock_crossing_marker then .clockCrossingFailure
    else if file_contains_string log timing_error_marker then .timingFailure
    else .unknown
  else .success

/-- The report files `test_synth_with_unhandled_clock_crossing_should_fail`
asserts to exist in the run directory. -/
def clock_crossing_artifacts_ok (artifacts : List String) : Bool :=
  artifacts.contains "clock_interaction.rpt"
    && artifacts.contains "timing_summary.rpt"

/-- The steps of `main` in `build_docs.py`, in program order. -/
inductive DocStep where
  | delete_html
  | registers
  | release_notes
  | apidoc
  | sphinx_index
  | sphinx_build
  | badges_dir
  | information_badges
  | coverage_badge
  | coverage_copy
deriving DecidableEq

/-- Models `main`: the sequence of steps executed for a given value of the
`--skip-coverage` flag; with the flag set, `main` returns before the two
coverage steps. -/
def main_steps (skip_coverage : Bool) : List DocStep :=
  [.delete_html, .registers, .release_notes, .apidoc, .sphinx_index,
   .sphinx_build, .badges_dir, .information_badges]
    ++ (if skip_coverage then [] else [.coverage_badge, .coverage_copy])

/-- The weak descending order the sorted stem list satisfies: the filename
key of the earlier element is not smaller than that of the later one. -/
def keyGe (a b : String) : Prop := charListLt (fileKey a) (fileKey b) = false

/-! ### Concrete fixtures used by witness theorems -/

/-- A sample unreleased entry, as `Release("unreleased.rst")` builds it. -/
def sampleRelease1 : Release :=
  { version := "Unreleased", git_tag := "master", date := "YYYY-MM-DD",
    release_notes_file := "unreleased" }

/-- A sample released entry. -/
def sampleRelease2 : Release :=
  { version := "1.0.0", git_tag := "v1.0.0", date := "2 march 2021",
    release_notes_file := "1.0.0" }

/-- A file system in which every note file reads the same body. -/
def sampleReadFile : String → Except String String := fun _ => .ok "body text"

/-- A file system in which the `unreleased` note file is missing. -/
def sampleNoUnreleasedRead : String → Except String String := fun s =>
  if s = "unreleased" then .error "file not found" else .ok "body text"

/-- A repository in which every tag resolves to timestamp 7. -/
def sampleTagDate : String → Except String Nat := fun _ => .ok 7

/-- A repository in which no tag resolves. -/
def sampleFailTagDate : String → Except String Nat := fun _ =>
  .error "tag not found"

/-- A calendar sending every timestamp to 2 March 2021. -/
def sampleCal : Nat → CivilDate := fun _ =>
  { day := 2, monthName := "March", year := 2021 }

/-! ### Helper lemmas about the character-list order -/

theorem char_toNat_inj {a b : Char} (h : a.toNat = b.toNat) : a = b :=
  Char.ext (UInt32.ext h)

theorem charListLt_asymm : ∀ {x y : List Char},
    charListLt x y = true → charListLt y x = false
  | [], [], h => by simp [charListLt] at h
  | [], _ :: _, _ => by simp [charListLt]
  | _ :: _, [], h => by simp [charListLt] at h
  | a :: as, b :: bs, h => by
    simp only [charListLt] at h ⊢
    by_cases hab : a.toNat < b.toNat
    · rw [if_neg (by omega : ¬ b.toNat < a.toNat), if_pos hab]
    · rw [if_neg hab] at h
      by_cases hba : b.toNat < a.toNat
      · rw [if_pos hba] at h; exact absurd h (by simp)
      · rw [if_neg hba] at h
        rw [if_neg hba, if_neg hab]
        exact charListLt_asymm h

theorem charListLt_false_antisymm : ∀ {x y : List Char},
    charListLt x y = false → charListLt y x = false → x = y
  | [], [], _, _ => rfl
  | [], _ :: _, h1, _ => by simp [charListLt] at h1
  | _ :: _, [], _, h2 => by simp [charListLt] at h2
  | a :: as, b :: bs, h1, h2 => by
    simp only [charListLt] at h1 h2
    by_cases hab : a.toNat < b.toNat
    · rw [if_pos hab] at h1; exact absurd h1 (by simp)
    · by_cases hba : b.toNat < a.toNat
      · rw [if_pos hba] at h2; exact absurd h2 (by simp)
      · rw [if_neg hab, if_neg hba] at h1
        have ha : a = b := char_toNat_inj (by omega)
        have := charListLt_false_antisymm h1 (by
          rw [if_neg hba, if_neg hab] at h2; exact h2)
        rw [ha, this]

theorem charListLt_false_trans : ∀ {x y z : List Char},
    charListLt x y = false → charListLt y z = false → charListLt x z = false
  | [], [], _, _, h2 => h2
  | [], _ :: _, _, h1, _ => by simp [charListLt] at h1
  | _ :: _, _, [], _, _ => by simp [charListLt]
  | _ :: _, [], _ :: _, _, h2 => by simp [charListLt] at h2
  | a :: as, b :: bs, c :: cs, h1, h2 => by
    simp only [charListLt] at h1 h2 ⊢
    by_cases hab : a.toNat < b.toNat
    · rw [if_pos hab] at h1; exact absurd h1 (by simp)
    · by_cases hbc : b.toNat < c.toNat
      · rw [if_pos hbc] at h2; exact absurd h2 (by simp)
      · have hac : ¬ a.toNat < c.toNat := by omega
        rw [if_neg hac]
        by_cases hca : c.toNat < a.toNat
        · rw [if_pos hca]
        · rw [if_neg hca]
          have hba : ¬ b.toNat < a.toNat := by omega
          have hcb : ¬ c.toNat < b.toNat := by omega
          rw [if_neg hab, if_neg hba] at h1
          rw [if_neg hbc, if_neg hcb] at h2
          exact charListLt_false_trans h1 h2

/-! ### Helper lemmas about the sort -/

theorem fileKey_inj {a b : String} (h : fileKey a = fileKey b) : a = b := by
  unfold fileKey at h
  rw [String.data_append, String.data_append] at h
  have hd : a.data = b.data := List.append_cancel_right h
  cases a; cases b; subst hd; rfl

theorem insertDesc_perm (x : String) :
    ∀ l : List String, (insertDesc x l).Perm (x :: l)
  | [] => List.Perm.refl _
  | y :: ys => by
    unfold insertDesc
    by_cases h : charListLt (fileKey x) (fileKey y) = true
    · rw [if_pos h]
      exact ((insertDesc_perm x ys).cons y).trans (List.Perm.swap x y ys)
    · rw [if_neg h]

theorem sortDesc_perm : ∀ l : List String, (sortDesc l).Perm l
  | [] => List.Perm.refl _
  | x :: xs =>
    (insertDesc_perm x (sortDesc xs)).trans ((sortDesc_perm xs).cons x)

theorem insertDesc_pairwise {x : String} :
    ∀ {l : List String}, List.Pairwise keyGe l →
      List.Pairwise keyGe (insertDesc x l)
  | [], _ => List.pairwise_singleton _ _
  | y :: ys, h => by
    rw [List.pairwise_cons] at h
    unfold insertDesc
    by_cases hxy : charListLt (fileKey x) (fileKey y) = true
    · rw [if_pos hxy]
      rw [List.pairwise_cons]
      refine ⟨fun z hz => ?_, insertDesc_pairwise h.2⟩
      rcases List.mem_cons.mp ((insertDesc_perm x ys).mem_iff.mp hz) with rfl | hz2
      · exact charListLt_asymm hxy
      · exact h.1 z hz2
    · rw [if_neg hxy]
      rw [List.pairwise_cons]
      refine ⟨fun z hz => ?_, List.pairwise_cons.mpr h⟩
      rcases List.mem_cons.mp hz with rfl | hz2
      · exact Bool.eq_false_iff.mpr hxy
      · exact charListLt_false_trans (Bool.eq_false_iff.mpr hxy) (h.1 z hz2)

theorem sortDesc_pairwise : ∀ l : List String, List.Pairwise keyGe (sortDesc l)
  | [] => List.Pairwise.nil
  | _ :: xs => insertDesc_pairwise (sortDesc_pairwise xs)

theorem sortDesc_eq_of_perm {l₁ l₂ : List String} (h : l₁.Perm l₂) :
    sortDesc l₁ = sortDesc l₂ := by
  haveI : IsAntisymm String keyGe :=
    ⟨fun a b h1 h2 => fileKey_inj (charListLt_false_antisymm h1 h2)⟩
  exact List.eq_of_perm_of_sorted
    ((sortDesc_perm l₁).trans (h.trans (sortDesc_perm l₂).symm))
    (sortDesc_pairwise l₁) (sortDesc_pairwise l₂)

/-! ### Helper lemmas about `mapE` and `withPrev` -/

theorem mapE_append_error {α β : Type} (f : α → Except String β) {s : α}
    {e : String} : ∀ {l1 : List α} (l2 : List α),
    (∀ x ∈ l1, ∃ r, f x = .ok r) → f s = .error e →
    mapE f (l1 ++ s :: l2) = .error e
  | [], l2, _, herr => by simp only [List.nil_append, mapE, herr]
  | x :: xs, l2, hok, herr => by
    obtain ⟨r, hr⟩ := hok x (List.mem_cons_self x xs)
    have ih := mapE_append_error f l2
      (fun z hz => hok z (List.mem_cons_of_mem x hz)) herr
    simp only [List.cons_append, mapE, List.append_eq, hr, ih]

theorem mapE_ok_exists {α β : Type} (f : α → Except String β) :
    ∀ {l : List α}, (∀ x ∈ l, ∃ r, f x = .ok r) →
      ∃ rs, mapE f l = .ok rs
  | [], _ => ⟨[], rfl⟩
  | x :: xs, hok => by
    obtain ⟨r, hr⟩ := hok x (List.mem_cons_self x xs)
    obtain ⟨rs, hrs⟩ := mapE_ok_exists f
      (fun z hz => hok z (List.mem_cons_of_mem x hz))
    exact ⟨r :: rs, by simp only [mapE, hr, hrs]⟩

theorem mapE_mem_ok {α β : Type} (f : α → Except String β) :
    ∀ {l : List α} {rs : List β}, mapE f l = .ok rs →
      ∀ r ∈ rs, ∃ x ∈ l, f x = .ok r
  | [], rs, h, r, hr => by
    simp only [mapE] at h
    cases h
    simp at hr
  | x :: xs, rs, h, r, hr => by
    simp only [mapE] at h
    cases hx : f x with
    | error e => rw [hx] at h; exact absurd h (by simp)
    | ok y =>
      rw [hx] at h
      cases hxs : mapE f xs with
      | error e => rw [hxs] at h; exact absurd h (by simp)
      | ok ys =>
        rw [hxs] at h
        cases h
        rcases List.mem_cons.mp hr with rfl | hr2
        · exact ⟨x, List.mem_cons_self x xs, hx⟩
        · obtain ⟨z, hz, hfz⟩ := mapE_mem_ok f hxs r hr2
          exact ⟨z, List.mem_cons_of_mem x hz, hfz⟩

theorem withPrev_fst_mem :
    ∀ {l : List Release} {p : Release × Option String},
      p ∈ withPrev l → p.1 ∈ l
  | [], p, h => by simp [withPrev] at h
  | [r], p, h => by
    simp only [withPrev, List.mem_singleton] at h
    subst h
    exact List.mem_singleton.mpr rfl
  | r :: r2 :: rest, p, h => by
    rcases List.mem_cons.mp h with rfl | h2
    · exact List.mem_cons_self _ _
    · exact List.mem_cons_of_mem r (withPrev_fst_mem h2)

theorem withPrev_length : ∀ l : List Release, (withPrev l).length = l.length
  | [] => rfl
  | [_] => rfl
  | r :: r2 :: rest => by
    simp only [withPrev, List.length_cons]
    rw [withPrev_length (r2 :: rest)]
    simp

theorem withPrev_get?_of_lt :
    ∀ (l : List Release) (i : Nat), i + 1 < l.length →
      ∃ r r2, l[i]? = some r ∧ l[i + 1]? = some r2 ∧
        (withPrev l)[i]? = some (r, some r2.git_tag)
  | [], i, h => by simp at h
  | [r], i, h => by simp at h
  | r :: r2 :: rest, 0, _ => by
    refine ⟨r, r2, ?_, ?_, ?_⟩
    · simp
    · simp
    · rw [show withPrev (r :: r2 :: rest)
            = (r, some r2.git_tag) :: withPrev (r2 :: rest) from rfl]
      simp
  | r :: r2 :: rest, i + 1, h => by
    obtain ⟨a, b, h1, h2, h3⟩ :=
      withPrev_get?_of_lt (r2 :: rest) i (by simpa using h)
    refine ⟨a, b, ?_, ?_, ?_⟩
    · rw [List.getElem?_cons_succ]; exact h1
    · rw [List.getElem?_cons_succ]; exact h2
    · show (withPrev (r :: r2 :: rest))[i + 1]? = _
      rw [show withPrev (r :: r2 :: rest)
            = (r, some r2.git_tag) :: withPrev (r2 :: rest) from rfl]
      rw [List.getElem?_cons_succ]
      exact h3

theorem withPrev_get?_last :
    ∀ (l : List Release), l ≠ [] →
      ∃ r, l[l.length - 1]? = some r ∧
        (withPrev l)[l.length - 1]? = some (r, none)
  | [], h => absurd rfl h
  | [r], _ => ⟨r, rfl, rfl⟩
  | r :: r2 :: rest, _ => by
    obtain ⟨a, h1, h2⟩ := withPrev_get?_last (r2 :: rest) (by simp)
    have hlen : (r :: r2 :: rest).length - 1 = ((r2 :: rest).length - 1) + 1 := by
      simp only [List.length_cons]
      omega
    refine ⟨a, ?_, ?_⟩
    · rw [hlen, List.getElem?_cons_succ]; exact h1
    · rw [show withPrev (r :: r2 :: rest)
            = (r, some r2.git_tag) :: withPrev (r2 :: rest) from rfl]
      rw [hlen, List.getElem?_cons_succ]
      exact h2

/-! ### Helper lemmas about the coverage computation -/

theorem pyRound_int (n : ℤ) : pyRound (n : ℚ) = n := by
  unfold pyRound
  simp

theorem line_coverage_div100 (n : ℤ) : line_coverage ((n : ℚ) / 100) = n := by
  unfold line_coverage
  have h : ((n : ℚ) / 100) * 100 = ((n : ℤ) : ℚ) := by
    field_simp
  rw [h, pyRound_int]

theorem line_coverage_85 : line_coverage (85 / 100) = 85 := by
  have := line_coverage_div100 85
  simpa using this

theorem line_coverage_55 : line_coverage (55 / 100) = 55 := by
  have := line_coverage_div100 55
  simpa using this

theorem line_coverage_40 : line_coverage (40 / 100) = 40 := by
  have := line_coverage_div100 40
  simpa using this

theorem line_coverage_50 : line_coverage (50 / 100) = 50 := by
  have := line_coverage_div100 50
  simpa using this

theorem line_coverage_80 : line_coverage (80 / 100) = 80 := by
  have := line_coverage_div100 80
  simpa using this

/-! ### Claim theorems -/

/-- C3: for a coverage report with line-rate fraction 0.85 the computed
percentage is 85 and the badge color is green; for 0.55 the percentage is 55
and the color is red; for 0.40 the coverage-badge step fails the
minimum-coverage assertion and produces no badge. -/
theorem coverage_badge_concrete_fractions :
    build_python_coverage_badge (85 / 100) = .ok ⟨85, "green"⟩
    ∧ build_python_coverage_badge (55 / 100) = .ok ⟨55, "red"⟩
    ∧ build_python_coverage_badge (40 / 100) = .error (lowMsg 40) := by
  refine ⟨?_, ?_, ?_⟩
  · unfold build_python_coverage_badge
    rw [line_coverage_85]
    norm_num
  · unfold build_python_coverage_badge
    rw [line_coverage_55]
    norm_num
  · unfold build_python_coverage_badge
    rw [line_coverage_40]
    norm_num

/-- C9: the coverage thresholds are strict inequalities: a line-rate whose
rounded percentage is exactly 50 fails the minimum-coverage assertion (a
badge is produced only for a percentage strictly above 50), and a percentage
of exactly 80 yields the red badge (green requires strictly more than 80). -/
theorem coverage_thresholds_strict :
    (∀ rate : ℚ, line_coverage rate = 50 →
       build_python_coverage_badge rate = .error (lowMsg 50))
    ∧ (∀ rate : ℚ, line_coverage rate = 80 →
       build_python_coverage_badge rate = .ok ⟨80, "red"⟩)
    ∧ (∀ rate : ℚ, (∃ b, build_python_coverage_badge rate = .ok b)
        ↔ 50 < line_coverage rate)
    ∧ (∀ (rate : ℚ) (b : CoverageBadge),
        build_python_coverage_badge rate = .ok b →
        (b.color = "green" ↔ 80 < line_coverage rate)) := by
  refine ⟨?_, ?_, ?_, ?_⟩
  · intro rate h
    unfold build_python_coverage_badge
    rw [h]
    norm_num
  · intro rate h
    unfold build_python_coverage_badge
    rw [h]
    norm_num
  · intro rate
    constructor
    · rintro ⟨b, hb⟩
      unfold build_python_coverage_badge at hb
      by_cases h : 50 < line_coverage rate
      · exact h
      · rw [if_neg h] at hb
        exact absurd hb (by simp)
    · intro h
      unfold build_python_coverage_badge
      rw [if_pos h]
      exact ⟨_, rfl⟩
  · intro rate b hb
    unfold build_python_coverage_badge at hb
    by_cases h : 50 < line_coverage rate
    · rw [if_pos h] at hb
      cases hb
      by_cases h80 : 80 < line_coverage rate
      · simp [if_pos h80, h80]
      · simp [if_neg h80, h80]
    · rw [if_neg h] at hb
      exact absurd hb (by simp)

/-- Witness for C9 at the concrete line-rates 0.5 and 0.8. -/
theorem coverage_thresholds_strict_witness :
    build_python_coverage_badge (50 / 100) = .error (lowMsg 50)
    ∧ build_python_coverage_badge (80 / 100) = .ok ⟨80, "red"⟩ :=
  ⟨coverage_thresholds_strict.1 (50 / 100) line_coverage_50,
   coverage_thresholds_strict.2.1 (80 / 100) line_coverage_80⟩

/-- C8: with `--skip-coverage` the coverage-badge and coverage-report-copy
steps do not run while every other documentation step runs unchanged and in
the same order; without the flag the coverage steps run as well, after the
common steps. -/
theorem skip_coverage_frame :
    main_steps true = [.delete_html, .registers, .release_notes, .apidoc,
      .sphinx_index, .sphinx_build, .badges_dir, .information_badges]
    ∧ main_steps false
        = main_steps true ++ [DocStep.coverage_badge, DocStep.coverage_copy]
    ∧ DocStep.coverage_badge ∉ main_steps true
    ∧ DocStep.coverage_copy ∉ main_steps true
    ∧ DocStep.coverage_badge ∈ main_steps false
    ∧ DocStep.coverage_copy ∈ main_steps false
    ∧ (main_steps false).filter
        (fun s => !(s == DocStep.coverage_badge || s == DocStep.coverage_copy))
        = main_steps true := by
  refine ⟨rfl, rfl, ?_, ?_, ?_, ?_, rfl⟩ <;> decide

/-- C4: a failed build whose log contains the clock-domain-crossing marker
(and not the compile-failure marker, the two being mutually exclusive by
construction of the test fixtures), with `clock_interaction.rpt` and
`timing_summary.rpt` present in the run directory and no bitstream, is
classified as a clock-crossing failure and not as success or compile
failure, and the clock-crossing artifact assertions pass. -/
theorem clock_crossing_classification (log : String) (artifacts : List String)
    (hcdc : file_contains_string log clock_crossing_marker = true)
    (hnc : file_contains_string log compile_error_marker = false)
    (hrpt1 : artifacts.contains "clock_interaction.rpt" = true)
    (hrpt2 : artifacts.contains "timing_summary.rpt" = true)
    (_hbit : artifacts.contains "test_proj.bit" = false) :
    classify_build true log = .clockCrossingFailure
    ∧ classify_build true log ≠ .success
    ∧ classify_build true log ≠ .compileFailure
    ∧ clock_crossing_artifacts_ok artifacts = true := by
  have hc : classify_build true log = .clockCrossingFailure := by
    simp [classify_build, hnc, hcdc]
  refine ⟨hc, by rw [hc]; simp, by rw [hc]; simp, ?_⟩
  unfold clock_crossing_artifacts_ok
  rw [hrpt1, hrpt2]
  rfl

/-- Witness for C4: the log that consists of the clock-crossing marker line
itself, with exactly the two report files present. -/
theorem clock_crossing_classification_witness :
    classify_build true "\nERROR: Unhandled clock crossing in synth_1 run."
      = .clockCrossingFailure
    ∧ classify_build true "\nERROR: Unhandled clock crossing in synth_1 run."
      ≠ .success
    ∧ classify_build true "\nERROR: Unhandled clock crossing in synth_1 run."
      ≠ .compileFailure
    ∧ clock_crossing_artifacts_ok
        ["clock_interaction.rpt", "timing_summary.rpt"] = true :=
  clock_crossing_classification
    "\nERROR: Unhandled clock crossing in synth_1 run."
    ["clock_interaction.rpt", "timing_summary.rpt"]
    (by decide) (by decide) (by decide) (by decide) (by decide)

theorem keyGt_of_keyGe_ne {a b : String} (hge : keyGe a b) (hne : a ≠ b) :
    charListLt (fileKey b) (fileKey a) = true := by
  cases h : charListLt (fileKey b) (fileKey a)
  · exact absurd (fileKey_inj (charListLt_false_antisymm hge h)) hne
  · rfl

/-- C1 counterexample: the claim sorts by filename stem, but the code sorts
the full filenames; for the versioned stems `1.2` and `1.2.3` the filename
`1.2.rst` is lexicographically greater than `1.2.3.rst` (at the fourth
character, `r` is greater than `3`), so the assembled order puts `1.2` before
`1.2.3` — which is not strictly descending by stem, since the stem `1.2` is a
proper prefix of, and hence smaller than, `1.2.3`. -/
theorem release_order_stem_counterexample :
    get_release_notes_stems ["1.2", "1.2.3"] = ["unreleased", "1.2", "1.2.3"]
    ∧ ¬ List.Pairwise (fun a b : String => charListLt b.data a.data = true)
        ["1.2", "1.2.3"] := by
  constructor
  · rfl
  · decide

/-- C1 (amended): for a note directory (with distinct filenames), the
assembled list puts the `unreleased` sentinel first, followed by exactly the
versioned stems in strictly descending lexicographic order of their full
filenames (stem plus `.rst`) — which coincides with descending stem order
except when one stem is a prefix of another. -/
theorem release_order_amended (stems : List String) (hnd : stems.Nodup) :
    ∃ tail, get_release_notes_stems stems = "unreleased" :: tail
      ∧ tail.Perm (stems.filter (fun s => s != "unreleased"))
      ∧ List.Pairwise
          (fun a b : String => charListLt (fileKey b) (fileKey a) = true)
          tail := by
  refine ⟨sortDesc (stems.filter (fun s => s != "unreleased")), rfl,
    sortDesc_perm _, ?_⟩
  have hndf : (stems.filter (fun s => s != "unreleased")).Nodup :=
    hnd.filter _
  have hnds : (sortDesc (stems.filter (fun s => s != "unreleased"))).Nodup :=
    (sortDesc_perm _).symm.nodup hndf
  have hpw := sortDesc_pairwise (stems.filter (fun s => s != "unreleased"))
  have hne : List.Pairwise (fun a b : String => a ≠ b)
      (sortDesc (stems.filter (fun s => s != "unreleased"))) := hnds
  exact (hpw.and hne).imp (fun h => keyGt_of_keyGe_ne h.1 h.2)

/-- Witness for the amended C1 at a concrete directory. -/
theorem release_order_amended_witness :
    ∃ tail, get_release_notes_stems ["unreleased", "1.0.1", "1.0.0"]
        = "unreleased" :: tail
      ∧ tail.Perm ((["unreleased", "1.0.1", "1.0.0"] : List String).filter
          (fun s => s != "unreleased"))
      ∧ List.Pairwise
          (fun a b : String => charListLt (fileKey b) (fileKey a) = true)
          tail :=
  release_order_amended ["unreleased", "1.0.1", "1.0.0"] (by decide)

/-- C2: in the assembled entry list, every entry except the last is paired
with the git tag of the next-older (next-in-list) entry as its
previous-release tag, and the last (oldest) entry is paired with none; in the
rendered text a pair with a previous tag gets the diff-link line whose target
is built from that tag, while a pair without one gets no diff-link line (the
empty string stands in its place). -/
theorem previous_release_links :
    (∀ (l : List Release) (i : Nat), i + 1 < l.length →
      ∃ r r2, l[i]? = some r ∧ l[i + 1]? = some r2 ∧
        (withPrev l)[i]? = some (r, some r2.git_tag))
    ∧ (∀ l : List Release, l ≠ [] →
      ∃ r, l[l.length - 1]? = some r ∧
        (withPrev l)[l.length - 1]? = some (r, none))
    ∧ (∀ (readFile : String → Except String String) (r : Release)
        (p body : String), readFile r.release_notes_file = .ok body →
        release_rst readFile r (some p)
          = .ok (headingOf r ++ "\n" ++ dashes (headingOf r).length ++ "\n"
              ++ "\n" ++ diffLine p r.git_tag ++ "\n" ++ body ++ "\n")
        ∧ release_rst readFile r none
          = .ok (headingOf r ++ "\n" ++ dashes (headingOf r).length ++ "\n"
              ++ "\n" ++ "" ++ "\n" ++ body ++ "\n")) := by
  refine ⟨withPrev_get?_of_lt, withPrev_get?_last, ?_⟩
  intro readFile r p body hread
  unfold release_rst
  rw [hread]
  exact ⟨rfl, rfl⟩

/-- Witness for C2 on a two-entry list and a concrete entry. -/
theorem previous_release_links_witness :
    (∃ r r2, ([sampleRelease1, sampleRelease2] : List Release)[0]? = some r
      ∧ ([sampleRelease1, sampleRelease2] : List Release)[0 + 1]? = some r2
      ∧ (withPrev [sampleRelease1, sampleRelease2])[0]?
          = some (r, some r2.git_tag))
    ∧ (∃ r, ([sampleRelease1, sampleRelease2] : List Release)[
          ([sampleRelease1, sampleRelease2] : List Release).length - 1]?
            = some r
      ∧ (withPrev [sampleRelease1, sampleRelease2])[
          ([sampleRelease1, sampleRelease2] : List Release).length - 1]?
            = some (r, none))
    ∧ (release_rst sampleReadFile sampleRelease2 (some "v0.9.0")
        = .ok (headingOf sampleRelease2 ++ "\n"
            ++ dashes (headingOf sampleRelease2).length ++ "\n" ++ "\n"
            ++ diffLine "v0.9.0" sampleRelease2.git_tag ++ "\n"
            ++ "body text" ++ "\n")
      ∧ release_rst sampleReadFile sampleRelease2 none
        = .ok (headingOf sampleRelease2 ++ "\n"
            ++ dashes (headingOf sampleRelease2).length ++ "\n" ++ "\n"
            ++ "" ++ "\n" ++ "body text" ++ "\n")) :=
  ⟨previous_release_links.1 [sampleRelease1, sampleRelease2] 0 (by decide),
   previous_release_links.2.1 [sampleRelease1, sampleRelease2] (by simp),
   previous_release_links.2.2 sampleReadFile sampleRelease2 "v0.9.0"
     "body text" rfl⟩

/-- C5: every entry produced by `get_release_notes_files` is either the
unreleased sentinel (version `Unreleased`, tag `master`, fixed placeholder
date `YYYY-MM-DD`) or a released entry whose tag is `v` plus the version and
whose date is the commit timestamp of that tag, converted by the calendar and
formatted as day, month name and year with the whole string lower-cased
(`formatDate`). -/
theorem release_fields (tagDate : String → Except String Nat)
    (cal : Nat → CivilDate) (stems : List String)
    (pairs : List (Release × Option String))
    (h : get_release_notes_files tagDate cal stems = .ok pairs) :
    ∀ p ∈ pairs,
      (p.1.version = "Unreleased" ∧ p.1.git_tag = "master"
        ∧ p.1.date = "YYYY-MM-DD")
      ∨ (∃ t, tagDate p.1.git_tag = .ok t ∧ p.1.git_tag = "v" ++ p.1.version
          ∧ p.1.date = formatDate (cal t)) := by
  intro p hp
  unfold get_release_notes_files at h
  cases hm : mapE (mkRelease tagDate cal) (get_release_notes_stems stems) with
  | error e => rw [hm] at h; exact absurd h (by simp)
  | ok releases =>
    rw [hm] at h
    cases h
    have hmem : p.1 ∈ releases := withPrev_fst_mem hp
    obtain ⟨stem, _hstem, hmk⟩ := mapE_mem_ok _ hm p.1 hmem
    unfold mkRelease at hmk
    by_cases hs : stem = "unreleased"
    · rw [if_pos hs] at hmk
      injection hmk with hmk
      left
      rw [← hmk]
      exact ⟨rfl, rfl, rfl⟩
    · rw [if_neg hs] at hmk
      unfold get_git_date_from_tag at hmk
      cases ht : tagDate ("v" ++ stem) with
      | error e => rw [ht] at hmk; exact absurd hmk (by simp)
      | ok t =>
        rw [ht] at hmk
        injection hmk with hmk
        right
        refine ⟨t, ?_, ?_, ?_⟩
        · rw [← hmk]; exact ht
        · rw [← hmk]
        · rw [← hmk]

/-- Witness for C5 at a concrete directory, instantiated at the released
entry of the output. -/
theorem release_fields_witness :
    (("1.0.0" : String) = "Unreleased" ∧ ("v1.0.0" : String) = "master"
      ∧ ("2 march 2021" : String) = "YYYY-MM-DD")
    ∨ (∃ t, sampleTagDate "v1.0.0" = .ok t
        ∧ ("v1.0.0" : String) = "v" ++ "1.0.0"
        ∧ ("2 march 2021" : String) = formatDate (sampleCal t)) :=
  release_fields sampleTagDate sampleCal ["1.0.0"]
    [(sampleRelease1, some "v1.0.0"), (sampleRelease2, none)] rfl
    (sampleRelease2, none) (by simp)

/-- C6: if resolving some entry's git tag fails while all entries before it
in processing order succeed, the assembler propagates that lookup error
unmodified and produces no output document (the result is the error, both for
the entry enumeration and for the whole generation). -/
theorem tag_error_propagation (readFile : String → Except String String)
    (tagDate : String → Except String Nat) (cal : Nat → CivilDate)
    (stems l1 : List String) (s : String) (l2 : List String) (e : String)
    (hsplit : get_release_notes_stems stems = l1 ++ s :: l2)
    (hok : ∀ x ∈ l1, ∃ r, mkRelease tagDate cal x = .ok r)
    (herr : mkRelease tagDate cal s = .error e) :
    generate_release_notes readFile tagDate cal stems = .error e
    ∧ get_release_notes_files tagDate cal stems = .error e := by
  have hm : mapE (mkRelease tagDate cal) (get_release_notes_stems stems)
      = .error e := by
    rw [hsplit]
    exact mapE_append_error _ l2 hok herr
  constructor
  · simp only [generate_release_notes, get_release_notes_files, hm]
  · simp only [get_release_notes_files, hm]

/-- Witness for C6: a one-version directory over a repository in which no tag
resolves. -/
theorem tag_error_propagation_witness :
    generate_release_notes sampleReadFile sampleFailTagDate sampleCal
        ["1.0.0"] = .error "tag not found"
    ∧ get_release_notes_files sampleFailTagDate sampleCal ["1.0.0"]
        = .error "tag not found" :=
  tag_error_propagation sampleReadFile sampleFailTagDate sampleCal ["1.0.0"]
    ["unreleased"] "1.0.0" [] "tag not found" rfl
    (by intro x hx; rw [List.mem_singleton] at hx; subst hx; exact ⟨_, rfl⟩)
    rfl

/-- C7: the assembler is a function of the set of note files only: two runs
over the same directory contents — the directory enumerated in any two
orders — produce identical output, so re-running on an unchanged directory
(with unchanged tag resolution, calendar and file contents) is
byte-identical. -/
theorem assembler_deterministic (readFile : String → Except String String)
    (tagDate : String → Except String Nat) (cal : Nat → CivilDate)
    (stems1 stems2 : List String) (hperm : stems1.Perm stems2) :
    generate_release_notes readFile tagDate cal stems1
      = generate_release_notes readFile tagDate cal stems2 := by
  have hstems : get_release_notes_stems stems1
      = get_release_notes_stems stems2 := by
    unfold get_release_notes_stems
    rw [sortDesc_eq_of_perm (hperm.filter _)]
  unfold generate_release_notes get_release_notes_files
  rw [hstems]

/-- Witness for C7: the same directory enumerated in two different orders. -/
theorem assembler_deterministic_witness :
    generate_release_notes sampleReadFile sampleTagDate sampleCal
        ["1.0.1", "unreleased", "1.0.0"]
      = generate_release_notes sampleReadFile sampleTagDate sampleCal
        ["unreleased", "1.0.0", "1.0.1"] :=
  assembler_deterministic sampleReadFile sampleTagDate sampleCal
    ["1.0.1", "unreleased", "1.0.0"] ["unreleased", "1.0.0", "1.0.1"]
    (by decide)

/-- C10: the `unreleased` sentinel is inserted at position 0 without checking
that the file exists: for a note directory without an unreleased file the
assembled stem list still starts with the sentinel, and (when every tag
resolves) the run fails with the read error of the missing unreleased note
body, producing no output document. -/
theorem missing_unreleased_file (readFile : String → Except String String)
    (tagDate : String → Except String Nat) (cal : Nat → CivilDate)
    (stems : List String) (e : String)
    (_hnofile : "unreleased" ∉ stems)
    (htags : ∀ s ∈ stems, ∃ t, tagDate ("v" ++ s) = .ok t)
    (hread : readFile "unreleased" = .error e) :
    (get_release_notes_stems stems).head? = some "unreleased"
    ∧ generate_release_notes readFile tagDate cal stems = .error e := by
  refine ⟨rfl, ?_⟩
  have hu : mkRelease tagDate cal "unreleased" = .ok sampleRelease1 := by
    unfold mkRelease
    rw [if_pos rfl]
    rfl
  have hallsorted : ∀ x ∈ sortDesc (stems.filter (fun s => s != "unreleased")),
      ∃ r, mkRelease tagDate cal x = .ok r := by
    intro x hx
    have hxf := (sortDesc_perm _).mem_iff.mp hx
    rw [List.mem_filter] at hxf
    obtain ⟨hxs, hxne⟩ := hxf
    obtain ⟨t, ht⟩ := htags x hxs
    refine ⟨{ version := x, git_tag := "v" ++ x,
              date := formatDate (cal t), release_notes_file := x }, ?_⟩
    unfold mkRelease
    rw [if_neg (by simpa using hxne)]
    unfold get_git_date_from_tag
    rw [ht]
  obtain ⟨rest, hrest⟩ := mapE_ok_exists (mkRelease tagDate cal) hallsorted
  have hrs : mapE (mkRelease tagDate cal) (get_release_notes_stems stems)
      = .ok (sampleRelease1 :: rest) := by
    unfold get_release_notes_stems
    simp only [mapE, hu, hrest]
  have hwpex : ∃ popt ps, withPrev (sampleRelease1 :: rest)
      = (sampleRelease1, popt) :: ps := by
    cases rest with
    | nil => exact ⟨none, [], rfl⟩
    | cons r2 tl => exact ⟨some r2.git_tag, withPrev (r2 :: tl), rfl⟩
  obtain ⟨popt, ps, hwp⟩ := hwpex
  have hfiles : get_release_notes_files tagDate cal stems
      = .ok ((sampleRelease1, popt) :: ps) := by
    unfold get_release_notes_files
    simp only [hrs, hwp]
  have hchunk : release_rst readFile sampleRelease1 popt = .error e := by
    unfold release_rst
    rw [show sampleRelease1.release_notes_file = "unreleased" from rfl, hread]
  unfold generate_release_notes
  simp only [hfiles, mapE, hchunk]

/-- Witness for C10: a directory holding only `1.0.0.rst`, over a file system
without an unreleased note file. -/
theorem missing_unreleased_file_witness :
    (get_release_notes_stems ["1.0.0"]).head? = some "unreleased"
    ∧ generate_release_notes sampleNoUnreleasedRead sampleTagDate sampleCal
        ["1.0.0"] = .error "file not found" :=
  missing_unreleased_file sampleNoUnreleasedRead sampleTagDate sampleCal
    ["1.0.0"] "file not found" (by decide) (fun s _ => ⟨7, rfl⟩) rfl
